import Mathlib

/-!
Verification of the PyStoneDisplay protocol layer.

This file embeds the protocol core of the repository in Lean:
the command model and its wire serializer (stone_commands.py),
the streaming response framer (StoneResponseBuffer), the response
registry and binary header decoder (StoneResponseType), the
per-widget outbound command queue (stone_widget.py), the widget
tree traversal (StoneDisplay.all_widgets / gather_commands), the
connection-liveness state machine (StoneDisplay.ping / connected),
and the bounded-property setters (brightness, current_index).

Python dictionaries are embedded as insertion-ordered association
lists, bytes as lists of naturals below 256, Python exceptions as
an explicit error type, and wall-clock time as an explicit natural
number parameter.
-/

set_option maxRecDepth 10000

/-! ## Python values and errors -/

/-- Values that appear inside a command field map, mirroring
CommandPrimitiveValue and CommandValue in stone_commands.py
(str, int, bool, and iterables of primitives; Enum values are
reduced to their underlying primitive by StoneCommand.__setitem__
before storage, so no separate enum constructor is needed;
float fields are unused by any claim and omitted). -/
inductive PyValue where
  | str : String → PyValue
  | int : Int → PyValue
  | bool : Bool → PyValue
  | list : List PyValue → PyValue
deriving Repr

/-- Python exceptions raised by the embedded code. -/
inductive PyError where
  | keyError : String → PyError
  | valueError : String → PyError
  | indexError : String → PyError
deriving Repr, DecidableEq

/-! ## Ordered dictionaries

Python dicts preserve insertion order; assigning to an existing key
replaces the value in place keeping the key position, assigning a
new key appends it at the end.  They are embedded as association
lists with unique keys. -/

/-- Assignment `d[k] = v` on an insertion-ordered Python dict. -/
def dictSet {α : Type} : List (String × α) → String → α → List (String × α)
  | [], k, v => [(k, v)]
  | p :: rest, k, v => if p.1 = k then (k, v) :: rest else p :: dictSet rest k v

/-- Key membership test `k in d` on a Python dict. -/
def hasKey {α : Type} (q : List (String × α)) (k : String) : Bool :=
  q.any fun p => p.1 == k

/-- The Python dict merge expression of two dicts: start from the first
dict and assign every binding of the second in order. -/
def pyDictMerge {α : Type} (a b : List (String × α)) : List (String × α) :=
  b.foldl (fun acc kv => dictSet acc kv.1 kv.2) a

/-! ## JSON encoding (the fragment of json.dumps used by serialized)

json.dumps is called with default arguments: item separator is a
comma followed by a space, key separator is a colon followed by a
space, ensure_ascii is true (characters outside the printable ASCII
range are emitted as backslash-u escapes, lowercase hex, surrogate
pairs above the BMP). -/

/-- Lowercase hexadecimal digit. -/
def hexDigit (n : Nat) : Char :=
  if n < 10 then Char.ofNat (48 + n) else Char.ofNat (87 + n)

/-- Four lowercase hexadecimal digits. -/
def hex4 (n : Nat) : String :=
  String.mk [hexDigit (n / 4096 % 16), hexDigit (n / 256 % 16),
             hexDigit (n / 16 % 16), hexDigit (n % 16)]

/-- Escape of a single character inside a JSON string literal,
as produced by json.dumps with ensure_ascii (the default). -/
def jsonEscapeChar (c : Char) : String :=
  if c = '"' then "\\\""
  else if c = '\\' then "\\\\"
  else if c = '\n' then "\\n"
  else if c = '\t' then "\\t"
  else if c = '\r' then "\\r"
  else if c.toNat = 8 then "\\b"
  else if c.toNat = 12 then "\\f"
  else if c.toNat < 32 then "\\u" ++ hex4 c.toNat
  else if c.toNat < 127 then String.singleton c
  else if c.toNat < 65536 then "\\u" ++ hex4 c.toNat
  else
    "\\u" ++ hex4 (55296 + (c.toNat - 65536) / 1024) ++
    "\\u" ++ hex4 (56320 + (c.toNat - 65536) % 1024)

/-- JSON string literal for a Python str. -/
def jsonString (s : String) : String :=
  "\"" ++ String.join (s.data.map jsonEscapeChar) ++ "\""

mutual

/-- JSON encoding of one Python value (default json.dumps rendering:
strings quoted and escaped, ints in decimal, booleans lowercase,
lists bracketed with comma-space separators). -/
def jsonValue : PyValue → String
  | .str s => jsonString s
  | .int n => toString n
  | .bool b => if b then "true" else "false"
  | .list xs => "[" ++ String.intercalate ", " (jsonValueList xs) ++ "]"

/-- JSON encodings of a list of Python values. -/
def jsonValueList : List PyValue → List String
  | [] => []
  | v :: rest => jsonValue v :: jsonValueList rest

end

/-- json.dumps of an insertion-ordered dict with default separators:
comma-space between items, colon-space between key and value. -/
def jsonDumps (items : List (String × PyValue)) : String :=
  "\x7b" ++
    String.intercalate ", "
      (items.map fun kv => jsonString kv.1 ++ ": " ++ jsonValue kv.2) ++
  "\x7d"

/-! ## Command model (stone_commands.py) -/

/-- message_start in stone_commands.py. -/
def message_start : String := "ST<"

/-- message_end in stone_commands.py. -/
def message_end : String := ">ET"

/-- A StoneCommand instance: command code, command type tag, the
instance name of the bound widget for a StoneWidgetCommand (none for
a plain system StoneCommand), and the user-set field dict written by
__setitem__ in insertion order. -/
structure StoneCommand where
  cmd_code : String
  cmd_type : String
  widget : Option String
  cmd_items : List (String × PyValue)
deriving Repr

/-- StoneCommand.body, including the StoneWidgetCommand.body override
that appends the widget entry holding the instance name of the bound
widget. -/
def StoneCommand.body (c : StoneCommand) : List (String × PyValue) :=
  [("cmd_code", .str c.cmd_code), ("type", .str c.cmd_type)] ++
    (match c.widget with
      | some w => [("widget", .str w)]
      | none => [])

/-- StoneCommand.serialized: json.dumps of the body dict merged with
the user-set items, wrapped between message_start and message_end. -/
def StoneCommand.serialized (c : StoneCommand) : String :=
  message_start ++ jsonDumps (pyDictMerge c.body c.cmd_items) ++ message_end

/-! ## Widget command queue (stone_widget.py)

StoneWidget.command_queue is a dict keyed by cmd_code.  push_command
resolves a command type to a command instance bound to the widget,
writes the keyword arguments into it, and then performs the dict
assignment -- so at the queue level a push is exactly a dictSet with
the finished command keyed by its code. -/

/-- The dict assignment at the end of StoneWidget.push_command. -/
def pushCommandQ (q : List (String × StoneCommand)) (c : StoneCommand) :
    List (String × StoneCommand) :=
  dictSet q c.cmd_code c

/-- StoneWidget.pop_command: takes the first key of the dict and
removes that entry, returning the command; raises on an empty queue. -/
def popCommandQ : List (String × StoneCommand) →
    Except PyError (StoneCommand × List (String × StoneCommand))
  | [] => .error (.valueError "Cannot pop command when command queue is empty!")
  | p :: rest => .ok (p.2, rest)

/-- The while loop in gather_commands that pops a widget queue until
has_commands is false: pop_command removes the first dict entry each
iteration, so the loop yields the queued commands in dict order. -/
def drainWidgetQueue : List (String × StoneCommand) → List StoneCommand
  | [] => []
  | p :: rest => p.2 :: drainWidgetQueue rest

/-! ## Widget tree and traversal (stone_display.py) -/

/-- A widget node: instance name, outbound command queue, and ordered
children (StoneWidget.children, in the order add_child appended them). -/
inductive StoneWidgetT where
  | mk (instance_name : String) (command_queue : List (String × StoneCommand))
       (children : List StoneWidgetT)

/-- Instance name of a widget node. -/
def StoneWidgetT.instance_name : StoneWidgetT → String
  | .mk n _ _ => n

/-- Command queue of a widget node. -/
def StoneWidgetT.command_queue : StoneWidgetT → List (String × StoneCommand)
  | .mk _ q _ => q

/-- Children of a widget node. -/
def StoneWidgetT.children : StoneWidgetT → List StoneWidgetT
  | .mk _ _ cs => cs

/-- Number of nodes in a forest of widget trees. -/
def totalWidgets : List StoneWidgetT → Nat
  | [] => 0
  | .mk _ _ cs :: rest => 1 + totalWidgets cs + totalWidgets rest

theorem totalWidgets_append (a b : List StoneWidgetT) :
    totalWidgets (a ++ b) = totalWidgets a + totalWidgets b := by
  induction a with
  | nil => simp [totalWidgets]
  | cons w rest ih =>
      cases w with
      | mk n q cs => simp [totalWidgets, ih]; omega

/-- The loop body of StoneDisplay.all_widgets.  The Python deque is
stored as the list of its elements read from the pop side (the right)
towards the left, so that deque.pop() takes the head of this list and
extendleft(children) -- which prepends the children one by one,
reversing them at the left end of the deque -- appends the children in
their original order at the tail of this list. -/
def allWidgetsAux : List StoneWidgetT → List StoneWidgetT
  | [] => []
  | w :: rest => w :: allWidgetsAux (rest ++ w.children)
termination_by dq => totalWidgets dq
decreasing_by
  cases w with
  | mk n q cs => simp [totalWidgets_append, StoneWidgetT.children, totalWidgets]; omega

/-- StoneDisplay.all_widgets: the deque is seeded with the windows list
(whose rightmost element, the most recently added window, is at the pop
side), then the loop runs until the deque is empty. -/
def allWidgets (windows : List StoneWidgetT) : List StoneWidgetT :=
  allWidgetsAux windows.reverse

/-- StoneDisplay.gather_commands: for each widget in all_widgets order,
pop its queue until empty. -/
def gatherCommands (windows : List StoneWidgetT) : List StoneCommand :=
  (allWidgets windows).flatMap fun w => drainWidgetQueue w.command_queue

/-! ## Response framer (StoneResponseBuffer in stone_commands.py)

Bytes are naturals below 256.  buffered_str maps each byte through chr,
and the two tokens are plain ASCII, so the endswith tests on the
character string coincide with suffix tests on the byte list. -/

/-- The bytes of message_start, the characters S, T, <. -/
def msgStartBytes : List Nat := [83, 84, 60]

/-- The bytes of message_end, the characters >, E, T. -/
def msgEndBytes : List Nat := [62, 69, 84]

/-- State of a StoneResponseBuffer: the byte accumulator, the buffering
flag, and the FIFO queue of completed frames. -/
structure StoneResponseBufferS where
  buffer : List Nat
  buffering : Bool
  queue : List (List Nat)
deriving Repr, DecidableEq

/-- A fresh StoneResponseBuffer as built by __init__. -/
def initResponseBuffer : StoneResponseBufferS := ⟨[], false, []⟩

/-- StoneResponseBuffer.process_byte: append the byte; if buffering and
the accumulator ends with the end token, enqueue the accumulator with
the trailing end token stripped and stop buffering; then, if the
accumulator ends with the start token, clear it and start buffering. -/
def processByte (s : StoneResponseBufferS) (b : Nat) : StoneResponseBufferS :=
  let buf := s.buffer ++ [b]
  let s1 : StoneResponseBufferS :=
    if s.buffering ∧ msgEndBytes.isSuffixOf buf then
      ⟨buf, false, s.queue ++ [buf.take (buf.length - msgEndBytes.length)]⟩
    else
      ⟨buf, s.buffering, s.queue⟩
  if msgStartBytes.isSuffixOf buf then
    ⟨[], true, s1.queue⟩
  else
    s1

/-- StoneResponseBuffer.push: process each byte in order. -/
def pushBytes (s : StoneResponseBufferS) (data : List Nat) : StoneResponseBufferS :=
  data.foldl processByte s

/-- StoneResponseBuffer.pop: remove and return the oldest queued frame,
or none when the queue is empty. -/
def popFrame (s : StoneResponseBufferS) :
    Option (List Nat) × StoneResponseBufferS :=
  match s.queue with
  | [] => (none, s)
  | f :: rest => (some f, ⟨s.buffer, s.buffering, rest⟩)

/-- Repeatedly popping the buffer until pop reports none, collecting
the returned frames (pop removes the head of the frame queue). -/
def drainFrames (s : StoneResponseBufferS) : List (List Nat) :=
  match _hq : s.queue with
  | [] => []
  | f :: rest => f :: drainFrames ⟨s.buffer, s.buffering, rest⟩
termination_by s.queue.length
decreasing_by simp [_hq]


/-- One well-formed wire span for payload p: start token, payload,
end token. -/
def spanBytes (p : List Nat) : List Nat := msgStartBytes ++ p ++ msgEndBytes

/-- tok never becomes a suffix of the accumulator while the bytes of p
are appended one at a time after an existing accumulator buf.  This is
the per-byte token scan of process_byte made into a predicate. -/
def noHit (tok : List Nat) : List Nat → List Nat → Bool
  | _, [] => true
  | buf, x :: rest => !tok.isSuffixOf (buf ++ [x]) && noHit tok (buf ++ [x]) rest

/-- Well-formedness of a frame payload: while the payload accumulates
from an empty accumulator it never triggers the end-token scan nor the
start-token scan. -/
def payloadOkB (p : List Nat) : Bool :=
  noHit msgEndBytes [] p && noHit msgStartBytes [] p

/-! ## Response registry and decoder (stone_commands.py) -/

/-- A registered response type: StoneResponseType carries a payload
parser; the StoneWidgetResponseType subclass additionally carries a
widget-name parser.  Parsers may raise, which the embedding reflects
in an Except result. -/
inductive StoneResponseTypeV where
  | plain (dataParse : List Nat → Except PyError (List (String × PyValue)))
  | widgetScoped (dataParse : List Nat → Except PyError (List (String × PyValue)))
                 (widgetNameParse : List Nat → Except PyError String)

/-- A decoded StoneResponse: code, parsed field map, and for a
StoneWidgetResponse the parsed widget name. -/
structure StoneResponseV where
  cmd_code : Nat
  cmd_data : List (String × PyValue)
  widget_name : Option String

/-- StoneResponseType.new and the StoneWidgetResponseType.new override:
run the payload parser, and for a widget-scoped type also the
widget-name parser (arguments are evaluated left to right in the
source constructor call). -/
def StoneResponseTypeV.new (t : StoneResponseTypeV) (code : Nat)
    (raw_data : List Nat) : Except PyError StoneResponseV :=
  match t with
  | .plain p => do
      let d ← p raw_data
      .ok ⟨code, d, none⟩
  | .widgetScoped p np => do
      let d ← p raw_data
      let n ← np raw_data
      .ok ⟨code, d, some n⟩

/-- The registry StoneResponseType.existing_types: a dict from numeric
code to response type, in registration order. -/
abbrev RegistryV : Type := List (Nat × StoneResponseTypeV)

/-- Dict lookup in the registry. -/
def regLookup (reg : RegistryV) (code : Nat) : Option StoneResponseTypeV :=
  match reg.find? (fun p => p.1 == code) with
  | some p => some p.2
  | none => none

/-- The duplicate-registration message raised by StoneResponseType.__init__. -/
def dupRegistrationMsg (code : Nat) : String :=
  "Cannot create two response type objects with the same command code (" ++
    toString code ++ ")"

/-- The registration step of StoneResponseType.__init__: raise a
KeyError when the code is already present, otherwise append the new
type under its code. -/
def registerResponseType (reg : RegistryV) (code : Nat)
    (t : StoneResponseTypeV) : Except PyError RegistryV :=
  if (regLookup reg code).isSome then
    .error (.keyError (dupRegistrationMsg code))
  else
    .ok (reg ++ [(code, t)])

/-- The registry that is in effect after a registration call: when the
call raises, the dict is untouched (the raise precedes the insertion). -/
def registryAfter (reg : RegistryV) (code : Nat) (t : StoneResponseTypeV) :
    RegistryV :=
  match registerResponseType reg code t with
  | .error _ => reg
  | .ok r => r

/-- Big-endian int.from_bytes. -/
def beBytes (l : List Nat) : Nat :=
  l.foldl (fun a b => a * 256 + b) 0

/-- The length-mismatch message raised by StoneResponseType.decode. -/
def lengthMismatchMsg (actual declared : Nat) : String :=
  "True length of data (" ++ toString actual ++
    ") did not match the defined length (" ++ toString declared ++ ")"

/-- StoneResponseType.decode: the first two bytes big-endian are the
code, the next two the declared length, the rest the payload; a length
mismatch raises a ValueError; the registry lookup and the parser
invocation sit inside one try block whose except clause catches
KeyError and returns None. -/
def decodeResponse (reg : RegistryV) (raw : List Nat) :
    Except PyError (Option StoneResponseV) :=
  let cmd_code := beBytes (raw.take 2)
  let cmd_len := beBytes ((raw.drop 2).take 2)
  let raw_data := raw.drop 4
  if raw_data.length ≠ cmd_len then
    .error (.valueError (lengthMismatchMsg raw_data.length cmd_len))
  else
    match regLookup reg cmd_code with
    | none => .ok none
    | some t =>
        match t.new cmd_code raw_data with
        | .error (.keyError _) => .ok none
        | .error e => .error e
        | .ok r => .ok (some r)

/-! ## Connection liveness (stone_display.py)

datetime.now() is passed in explicitly as a natural number of
milliseconds, and the deadline ping_timeout_time is stored the same
way.  The home window command queue is tracked by its dict keys only
(the pushed sys_hello command carries no fields). -/

/-- The connection fields of StoneDisplay: _connected,
ping_timeout_time, and the key list of the home window command queue. -/
structure StoneDisplayConn where
  connected : Bool
  ping_timeout_time : Option Nat
  home_queue_codes : List String
deriving Repr, DecidableEq

/-- The three-state view of the tracker used by the specification:
PING_PENDING whenever a deadline is recorded, otherwise CONNECTED or
DISCONNECTED according to the _connected flag. -/
inductive ConnTrackerState where
  | DISCONNECTED
  | PING_PENDING
  | CONNECTED
deriving Repr, DecidableEq

/-- Abstraction of the connection fields to the tracker state. -/
def trackerState (s : StoneDisplayConn) : ConnTrackerState :=
  match s.ping_timeout_time with
  | some _ => .PING_PENDING
  | none => if s.connected then .CONNECTED else .DISCONNECTED

/-- StoneDisplay._is_timed_out: a deadline is recorded and now has
reached it. -/
def isTimedOut (now : Nat) (s : StoneDisplayConn) : Bool :=
  match s.ping_timeout_time with
  | some d => decide (now ≥ d)
  | none => false

/-- StoneDisplay._set_connected: clear the deadline and store the flag. -/
def setConnectedS (b : Bool) (s : StoneDisplayConn) : StoneDisplayConn :=
  ⟨b, none, s.home_queue_codes⟩

/-- The dict-key effect of pushing a command on the home window:
an already queued code keeps its position, a new code is appended. -/
def pushCode (codes : List String) (c : String) : List String :=
  if codes.contains c then codes else codes ++ [c]

/-- StoneDisplay.ping: when no deadline is recorded, enqueue sys_hello
on the home window and record now plus the timeout as the deadline;
otherwise, when the recorded deadline has passed, transition to
disconnected and clear it; otherwise no change. -/
def pingDisplay (now timeout : Nat) (s : StoneDisplayConn) : StoneDisplayConn :=
  if s.ping_timeout_time = none then
    ⟨s.connected, some (now + timeout), pushCode s.home_queue_codes "sys_hello"⟩
  else if isTimedOut now s then
    setConnectedS false s
  else
    s

/-- The StoneDisplay.connected property: when timed out, first apply
_set_connected false, then report the current _connected flag.  The
returned pair is the reported boolean and the state left behind. -/
def connectedProp (now : Nat) (s : StoneDisplayConn) :
    Bool × StoneDisplayConn :=
  if isTimedOut now s then
    (false, setConnectedS false s)
  else
    (s.connected, s)

/-- Dispatch of a decoded sys_hello_response frame with payload
raw_data: the registered parser produces a field map where connected
is the comparison of the payload with the single byte 1, and the
registered handler _set_connected is invoked with that value. -/
def dispatchHelloResponse (raw_data : List Nat) (s : StoneDisplayConn) :
    StoneDisplayConn :=
  setConnectedS (raw_data = [1]) s

/-! ## Bounded property setters (C9)

The brightness setter lives on StoneDisplay and pushes set_brightness
on the home window; the current_index setter lives on StoneSlideView
and pushes set_view on the slide view itself. -/

/-- The brightness fields of StoneDisplay: _brightness and the home
window command queue. -/
structure BrightnessState where
  brightness : Int
  home_queue : List (String × StoneCommand)
deriving Repr

/-- The message raised by the brightness setter. -/
def brightnessRangeMsg (value : Int) : String :=
  "Cannot set brightness level outside of interval <0, 100> (tried value " ++
    toString value ++ ")"

/-- The brightness setter: reject values above 100 or below 0 with a
ValueError before anything is queued; otherwise store the value and
push set_brightness (a system command) carrying it. -/
def setBrightness (value : Int) (s : BrightnessState) :
    Except PyError BrightnessState :=
  if value > 100 ∨ value < 0 then
    .error (.valueError (brightnessRangeMsg value))
  else
    .ok ⟨value,
         pushCommandQ s.home_queue
           ⟨"set_brightness", "system", none, [("brightness", .int value)]⟩⟩

/-- The state left behind by a brightness assignment: on a raise the
fields are untouched. -/
def brightnessAfter (value : Int) (s : BrightnessState) : BrightnessState :=
  match setBrightness value s with
  | .error _ => s
  | .ok s1 => s1

/-- The current_index fields of a StoneSlideView: _index, the number
of children, the instance name, and the command queue. -/
structure SlideViewState where
  index : Int
  child_count : Nat
  instance_name : String
  command_queue : List (String × StoneCommand)
deriving Repr

/-- The message raised by the current_index setter; its own text
documents the allowed range as 0 through child count minus one. -/
def indexRangeMsg (value : Int) (count : Nat) : String :=
  "Index \"" ++ toString value ++ "\" outside of allowed range <0, " ++
    toString ((count : Int) - 1) ++ ">"

/-- The current_index setter: raise an IndexError when the value is at
least the number of children, otherwise store the value and push
set_view (command type slide_view, bound to this widget) carrying it.
The source performs no lower-bound check. -/
def setCurrentIndex (value : Int) (s : SlideViewState) :
    Except PyError SlideViewState :=
  if value ≥ (s.child_count : Int) then
    .error (.indexError (indexRangeMsg value s.child_count))
  else
    .ok ⟨value, s.child_count, s.instance_name,
         pushCommandQ s.command_queue
           ⟨"set_view", "slide_view", some s.instance_name,
            [("index", .int value)]⟩⟩

/-! ## Concrete instances used by the claim theorems -/

/-- The example tree of the traversal claim: a root window whose
children are child1 (holding grandchild G) and child2, each widget
holding one queued command so that gather order is visible. -/
def exWidgetG : StoneWidgetT := .mk "G" [("g", ⟨"g", "widget", some "G", []⟩)] []

/-- First child of the example root, holding grandchild G. -/
def exWidgetChild1 : StoneWidgetT :=
  .mk "child1" [("c1", ⟨"c1", "widget", some "child1", []⟩)] [exWidgetG]

/-- Second child of the example root. -/
def exWidgetChild2 : StoneWidgetT :=
  .mk "child2" [("c2", ⟨"c2", "widget", some "child2", []⟩)] []

/-- The example root window. -/
def exWidgetRoot : StoneWidgetT :=
  .mk "root" [("r", ⟨"r", "widget", some "root", []⟩)] [exWidgetChild1, exWidgetChild2]

/-- First enqueue of code A in the dedup scenario. -/
def cmdA1 : StoneCommand := ⟨"A", "widget", some "w", [("v", .int 1)]⟩

/-- Second enqueue of code A, with a different field value. -/
def cmdA2 : StoneCommand := ⟨"A", "widget", some "w", [("v", .int 2)]⟩

/-- A command with the distinct code B. -/
def cmdB : StoneCommand := ⟨"B", "widget", some "w", [("v", .int 3)]⟩

/-- The set_visible command for widget w1 with visible set to true, as
built by the visible property setter on a StoneWidget named w1. -/
def exampleSetVisibleCmd : StoneCommand :=
  ⟨"set_visible", "widget", some "w1", [("visible", .bool true)]⟩

/-- A tree containing only the widget w1 with that command queued. -/
def exampleW1Widget : StoneWidgetT := .mk "w1" [("set_visible", exampleSetVisibleCmd)] []

/-- The compact serialization the claim asserts (no spaces inside the
object). -/
def compactClaimStr : String :=
  "ST<\x7b\"cmd_code\":\"set_visible\",\"type\":\"widget\",\"widget\":\"w1\",\"visible\":true\x7d>ET"

/-- The serialization the source produces: json.dumps default
separators put a space after every colon and comma. -/
def spacedSerializedStr : String :=
  "ST<\x7b\"cmd_code\": \"set_visible\", \"type\": \"widget\", \"widget\": \"w1\", \"visible\": true\x7d>ET"

/-- A registry with one registered code used to exercise decode. -/
def c4WitnessReg : RegistryV := [(1, .plain fun _ => .ok [])]

/-- The first registered descriptor in the duplicate-registration
scenario. -/
def c8FirstType : StoneResponseTypeV := .plain fun _ => .ok [("first", .int 1)]

/-- A registry whose only descriptor has a widget-name parser that
raises KeyError on every payload. -/
def c10WitnessReg : RegistryV :=
  [(7, .widgetScoped (fun _ => .ok [("k", .int 0)])
        (fun _ => .error (.keyError "name missing")))]

/-! ## Helper lemmas on dictionaries -/

/-- hasKey agrees with key membership. -/
theorem hasKey_iff_mem {α : Type} (q : List (String × α)) (k : String) :
    hasKey q k = true ↔ k ∈ q.map Prod.fst := by
  simp [hasKey, List.any_eq_true, List.mem_map]

/-- hasKey on a nonempty dict. -/
theorem hasKey_cons {α : Type} (p : String × α) (rest : List (String × α)) (k : String) :
    hasKey (p :: rest) k = (p.1 == k || hasKey rest k) := rfl

/-- Writing the same key twice keeps only the second value. -/
theorem dictSet_dictSet_same {α : Type} (q : List (String × α)) (k : String) (v1 v2 : α) :
    dictSet (dictSet q k v1) k v2 = dictSet q k v2 := by
  induction q with
  | nil => simp [dictSet]
  | cons p rest ih =>
      by_cases h : p.1 = k
      · simp [dictSet, h]
      · simp [dictSet, h, ih]

/-- A dict write keeps the key order: an existing key stays in place,
a new key is appended at the end. -/
theorem dictSet_keys {α : Type} (q : List (String × α)) (k : String) (v : α) :
    (dictSet q k v).map Prod.fst =
      if hasKey q k then q.map Prod.fst else q.map Prod.fst ++ [k] := by
  induction q with
  | nil => simp [dictSet, hasKey]
  | cons p rest ih =>
      by_cases h : p.1 = k
      · simp [dictSet, hasKey_cons, h]
      · by_cases h2 : hasKey rest k
        · simp [dictSet, hasKey_cons, h, ih, h2]
        · simp [dictSet, hasKey_cons, h, ih, h2]

/-- A dict write preserves key uniqueness. -/
theorem dictSet_keys_nodup {α : Type} (q : List (String × α)) (k : String) (v : α)
    (hn : (q.map Prod.fst).Nodup) : ((dictSet q k v).map Prod.fst).Nodup := by
  rw [dictSet_keys]
  by_cases h : hasKey q k
  · simp [h, hn]
  · have hk : k ∉ q.map Prod.fst := by
      intro hc
      exact h ((hasKey_iff_mem q k).mpr hc)
    simp [h, List.nodup_append, hn, hk]

/-- Writing an absent key appends the binding. -/
theorem dictSet_of_not_mem {α : Type} (q : List (String × α)) (k : String) (v : α)
    (h : k ∉ q.map Prod.fst) : dictSet q k v = q ++ [(k, v)] := by
  induction q with
  | nil => simp [dictSet]
  | cons p rest ih =>
      simp only [List.map_cons, List.mem_cons, not_or] at h
      simp [dictSet, ih h.2, Ne.symm h.1]

/-- When the merged key list has no duplicate, the Python dict merge
is plain concatenation. -/
theorem pyDictMerge_eq_append {α : Type} :
    ∀ (b a : List (String × α)), (((a ++ b).map Prod.fst).Nodup) →
      pyDictMerge a b = a ++ b := by
  intro b
  induction b with
  | nil => intro a h; simp [pyDictMerge]
  | cons kv rest ih =>
      intro a h
      have hmap : ((a ++ kv :: rest).map Prod.fst) =
          a.map Prod.fst ++ kv.1 :: rest.map Prod.fst := by simp
      have hk : kv.1 ∉ a.map Prod.fst := by
        rw [hmap] at h
        rcases List.nodup_append.mp h with ⟨_, _, hdisj⟩
        intro hc
        exact hdisj hc (by simp)
      have step : pyDictMerge a (kv :: rest) = pyDictMerge (a ++ [kv]) rest := by
        simp [pyDictMerge, dictSet_of_not_mem a kv.1 kv.2 hk]
      have h2 : (((a ++ [kv]) ++ rest).map Prod.fst).Nodup := by
        have he : (a ++ [kv]) ++ rest = a ++ kv :: rest := by simp
        rw [he]; exact h
      rw [step, ih (a ++ [kv]) h2]
      simp

/-! ## Helper lemmas on the framer -/

/-- A three-byte token is no suffix of a list whose last byte differs
from the token's last byte (boolean form). -/
theorem suffix3_concat_false (a b c x : Nat) (l : List Nat) (h : c ≠ x) :
    [a, b, c].isSuffixOf (l ++ [x]) = false := by
  simp [List.isSuffixOf, List.reverse_append, List.isPrefixOf, h]

/-- A three-byte token is a suffix of any list it ends (boolean form). -/
theorem suffix3_concat_self (a b c : Nat) (l : List Nat) :
    [a, b, c].isSuffixOf (l ++ [a, b, c]) = true := by
  simp [List.isSuffixOf, List.reverse_append, List.isPrefixOf]

/-- A three-byte token is no suffix of a list whose last byte differs
from the token's last byte (relational form). -/
theorem suffix3_concat_not (a b c x : Nat) (l : List Nat) (h : c ≠ x) :
    ¬ ([a, b, c] <:+ l ++ [x]) := by
  rintro ⟨u, hu⟩
  have h1 : ((u ++ [a, b]) ++ [c]) = l ++ [x] := by simpa using hu
  have h2 := congrArg List.getLast? h1
  simp [List.getLast?_concat] at h2
  exact h h2

/-- push on an empty byte string. -/
theorem pushBytes_nil (s : StoneResponseBufferS) : pushBytes s [] = s := rfl

/-- push processes the first byte and recurses. -/
theorem pushBytes_cons (s : StoneResponseBufferS) (x : Nat) (rest : List Nat) :
    pushBytes s (x :: rest) = pushBytes (processByte s x) rest := rfl

/-- Feeding a byte string in two push calls equals one undivided push:
the accumulator state is retained between pushes. -/
theorem pushBytes_append (s : StoneResponseBufferS) (a b : List Nat) :
    pushBytes s (a ++ b) = pushBytes (pushBytes s a) b := by
  simp [pushBytes, List.foldl_append]

/-- A byte that completes neither token only grows the accumulator. -/
theorem processByte_of_no_tokens (s : StoneResponseBufferS) (b : Nat)
    (h1 : msgEndBytes.isSuffixOf (s.buffer ++ [b]) = false)
    (h2 : msgStartBytes.isSuffixOf (s.buffer ++ [b]) = false) :
    processByte s b = ⟨s.buffer ++ [b], s.buffering, s.queue⟩ := by
  simp [processByte, h1, h2]

/-- While not buffering, a byte that does not complete the start token
only grows the accumulator. -/
theorem processByte_not_buffering (s : StoneResponseBufferS) (b : Nat)
    (hb : s.buffering = false)
    (h2 : msgStartBytes.isSuffixOf (s.buffer ++ [b]) = false) :
    processByte s b = ⟨s.buffer ++ [b], false, s.queue⟩ := by
  simp [processByte, hb, h2]

/-- Pushing bytes that never complete the start token while the flag
is down accumulates them verbatim: this is how leading noise is held. -/
theorem pushBytes_calm :
    ∀ (p : List Nat) (s : StoneResponseBufferS), s.buffering = false →
      noHit msgStartBytes s.buffer p = true →
      pushBytes s p = ⟨s.buffer ++ p, false, s.queue⟩ := by
  intro p
  induction p with
  | nil =>
      intro s hb _
      cases s with
      | mk buf bf q => simp_all [pushBytes_nil]
  | cons x rest ih =>
      intro s hb hn
      simp only [noHit, Bool.and_eq_true, Bool.not_eq_true'] at hn
      rw [pushBytes_cons, processByte_not_buffering s x hb hn.1]
      have := ih ⟨s.buffer ++ [x], false, s.queue⟩ rfl hn.2
      simpa using this

/-- Pushing bytes that complete neither token accumulates them
verbatim whatever the flag is: this is how a payload is held. -/
theorem pushBytes_inert :
    ∀ (p : List Nat) (s : StoneResponseBufferS),
      noHit msgEndBytes s.buffer p = true →
      noHit msgStartBytes s.buffer p = true →
      pushBytes s p = ⟨s.buffer ++ p, s.buffering, s.queue⟩ := by
  intro p
  induction p with
  | nil =>
      intro s _ _
      cases s with
      | mk buf bf q => simp [pushBytes_nil]
  | cons x rest ih =>
      intro s h1 h2
      simp only [noHit, Bool.and_eq_true, Bool.not_eq_true'] at h1 h2
      rw [pushBytes_cons, processByte_of_no_tokens s x h1.1 h2.1]
      have := ih ⟨s.buffer ++ [x], s.buffering, s.queue⟩ h1.2 h2.2
      simpa using this

/-- Pushing the start token from any non-buffering state clears the
accumulator and raises the flag, whatever was accumulated before. -/
theorem pushBytes_startTok (s : StoneResponseBufferS) (hb : s.buffering = false) :
    pushBytes s msgStartBytes = ⟨[], true, s.queue⟩ := by
  have e1 : processByte s 83 = ⟨s.buffer ++ [83], false, s.queue⟩ :=
    processByte_not_buffering s 83 hb
      (suffix3_concat_false 83 84 60 83 s.buffer (by decide))
  have e2 : processByte ⟨s.buffer ++ [83], false, s.queue⟩ 84
      = ⟨(s.buffer ++ [83]) ++ [84], false, s.queue⟩ :=
    processByte_not_buffering _ 84 rfl
      (suffix3_concat_false 83 84 60 84 (s.buffer ++ [83]) (by decide))
  have e3 : processByte ⟨(s.buffer ++ [83]) ++ [84], false, s.queue⟩ 60
      = ⟨[], true, s.queue⟩ := by
    have hs : msgStartBytes.isSuffixOf (((s.buffer ++ [83]) ++ [84]) ++ [60]) = true := by
      have ha : ((s.buffer ++ [83]) ++ [84]) ++ [60] = s.buffer ++ [83, 84, 60] := by
        simp
      rw [ha]
      exact suffix3_concat_self 83 84 60 s.buffer
    simp [processByte, hs]
    exact ⟨s.buffer, rfl⟩
  show processByte (processByte (processByte s 83) 84) 60 = _
  rw [e1, e2, e3]

/-- Pushing the end token while buffering enqueues the accumulated
payload (end token stripped) and lowers the flag. -/
theorem pushBytes_endTok (p : List Nat) (q : List (List Nat)) :
    pushBytes ⟨p, true, q⟩ msgEndBytes = ⟨p ++ msgEndBytes, false, q ++ [p]⟩ := by
  have e1 : processByte ⟨p, true, q⟩ 62 = ⟨p ++ [62], true, q⟩ :=
    processByte_of_no_tokens _ 62
      (suffix3_concat_false 62 69 84 62 p (by decide))
      (suffix3_concat_false 83 84 60 62 p (by decide))
  have e2 : processByte ⟨p ++ [62], true, q⟩ 69 = ⟨(p ++ [62]) ++ [69], true, q⟩ :=
    processByte_of_no_tokens _ 69
      (suffix3_concat_false 62 69 84 69 (p ++ [62]) (by decide))
      (suffix3_concat_false 83 84 60 69 (p ++ [62]) (by decide))
  have e3 : processByte ⟨(p ++ [62]) ++ [69], true, q⟩ 84
      = ⟨p ++ msgEndBytes, false, q ++ [p]⟩ := by
    have ha : ((p ++ [62]) ++ [69]) ++ [84] = p ++ [62, 69, 84] := by simp
    have he : msgEndBytes.isSuffixOf (((p ++ [62]) ++ [69]) ++ [84]) = true := by
      rw [ha]; exact suffix3_concat_self 62 69 84 p
    have hns : msgStartBytes.isSuffixOf (((p ++ [62]) ++ [69]) ++ [84]) = false :=
      suffix3_concat_false 83 84 60 84 ((p ++ [62]) ++ [69]) (by decide)
    have htk : (p ++ [62, 69, 84]).take ((p ++ [62, 69, 84]).length - 3) = p := by
      simp
    simp only [processByte, he, hns, ha]
    simp [htk, msgEndBytes]
    have hval := suffix3_concat_not 83 84 60 84 (p ++ [62, 69]) (by decide)
    simpa using hval
  show processByte (processByte (processByte _ 62) 69) 84 = _
  rw [e1, e2, e3]

/-- Pushing one whole well-formed span from a non-buffering state
appends exactly its payload to the frame queue. -/
theorem pushBytes_span (s : StoneResponseBufferS) (p : List Nat)
    (hb : s.buffering = false) (hp : payloadOkB p = true) :
    pushBytes s (spanBytes p) = ⟨p ++ msgEndBytes, false, s.queue ++ [p]⟩ := by
  simp only [payloadOkB, Bool.and_eq_true] at hp
  have h1 : pushBytes s (msgStartBytes ++ (p ++ msgEndBytes))
      = pushBytes (pushBytes s msgStartBytes) (p ++ msgEndBytes) :=
    pushBytes_append s msgStartBytes (p ++ msgEndBytes)
  have h2 : pushBytes (⟨[], true, s.queue⟩ : StoneResponseBufferS) (p ++ msgEndBytes)
      = pushBytes (pushBytes ⟨[], true, s.queue⟩ p) msgEndBytes :=
    pushBytes_append _ p msgEndBytes
  have h3 : pushBytes (⟨[], true, s.queue⟩ : StoneResponseBufferS) p
      = ⟨p, true, s.queue⟩ := by
    have := pushBytes_inert p ⟨[], true, s.queue⟩ hp.1 hp.2
    simpa using this
  calc pushBytes s (spanBytes p)
      = pushBytes (pushBytes s msgStartBytes) (p ++ msgEndBytes) := by
        rw [spanBytes, List.append_assoc] at *; exact h1
    _ = pushBytes (⟨[], true, s.queue⟩ : StoneResponseBufferS) (p ++ msgEndBytes) := by
        rw [pushBytes_startTok s hb]
    _ = pushBytes (⟨p, true, s.queue⟩ : StoneResponseBufferS) msgEndBytes := by
        rw [h2, h3]
    _ = ⟨p ++ msgEndBytes, false, s.queue ++ [p]⟩ := pushBytes_endTok p s.queue

/-- Pushing a concatenation of well-formed spans from any
non-buffering state appends exactly their payloads, in order, to the
frame queue. -/
theorem pushBytes_spans :
    ∀ (payloads : List (List Nat)) (s : StoneResponseBufferS),
      s.buffering = false →
      (∀ p ∈ payloads, payloadOkB p = true) →
      ∃ buf, pushBytes s (payloads.flatMap spanBytes)
          = ⟨buf, false, s.queue ++ payloads⟩ := by
  intro payloads
  induction payloads with
  | nil =>
      intro s hb _
      refine ⟨s.buffer, ?_⟩
      cases s with
      | mk buf bf q => simp_all [pushBytes_nil]
  | cons p rest ih =>
      intro s hb hps
      have hp : payloadOkB p = true := hps p (by simp)
      have hrest : ∀ x ∈ rest, payloadOkB x = true := fun x hx => hps x (by simp [hx])
      rw [List.flatMap_cons, pushBytes_append, pushBytes_span s p hb hp]
      rcases ih ⟨p ++ msgEndBytes, false, s.queue ++ [p]⟩ rfl hrest with ⟨buf, hbuf⟩
      refine ⟨buf, ?_⟩
      rw [hbuf]
      simp

/-- Repeated pops return exactly the frame queue, oldest first. -/
theorem drainFrames_eq : ∀ (q : List (List Nat)) (buf : List Nat) (bf : Bool),
    drainFrames ⟨buf, bf, q⟩ = q := by
  intro q
  induction q with
  | nil => intro buf bf; rw [drainFrames]
  | cons f rest ih =>
      intro buf bf
      rw [drainFrames]
      simp [ih]

/-! ## Helper lemmas on the traversal -/

/-- The traversal loop visits every widget of the deque exactly once:
its output length is the total node count. -/
theorem allWidgetsAux_length :
    ∀ dq : List StoneWidgetT, (allWidgetsAux dq).length = totalWidgets dq := by
  intro dq
  induction dq using allWidgetsAux.induct with
  | case1 => simp [allWidgetsAux, totalWidgets]
  | case2 w rest ih =>
      rw [allWidgetsAux]
      cases w with
      | mk n q cs =>
          simp only [StoneWidgetT.children] at ih
          simp only [List.length_cons, ih, totalWidgets_append, totalWidgets,
            StoneWidgetT.children]
          omega

/-- Reversing a forest does not change its node count. -/
theorem totalWidgets_reverse :
    ∀ l : List StoneWidgetT, totalWidgets l.reverse = totalWidgets l := by
  intro l
  induction l with
  | nil => rfl
  | cons w rest ih =>
      cases w with
      | mk n q cs =>
          simp only [List.reverse_cons, totalWidgets_append, totalWidgets, ih]
          omega

/-- The pop-until-empty loop returns the queued commands in dict order. -/
theorem drainWidgetQueue_eq_map :
    ∀ q : List (String × StoneCommand), drainWidgetQueue q = q.map Prod.snd := by
  intro q
  induction q with
  | nil => rfl
  | cons p rest ih => simp [drainWidgetQueue, ih]

/-! ## Claim C1 -/

/-- Claim C1 counterexample: the claim asserts that all_widgets visits
the example tree (root with children child1 and child2, child1 holding
grandchild G) in pre-order depth-first order root, child1, G, child2;
the source visits root, child1, child2, G, which differs. -/
theorem c1_counterexample :
    (allWidgets [exWidgetRoot]).map StoneWidgetT.instance_name
        = ["root", "child1", "child2", "G"]
    ∧ (allWidgets [exWidgetRoot]).map StoneWidgetT.instance_name
        ≠ ["root", "child1", "G", "child2"] := by
  constructor
  · simp [allWidgets, allWidgetsAux, exWidgetRoot, exWidgetChild1, exWidgetChild2,
      exWidgetG, StoneWidgetT.children, StoneWidgetT.instance_name]
  · intro h
    have := congrArg (fun l => l.get? 2) h
    simp [allWidgets, allWidgetsAux, exWidgetRoot, exWidgetChild1, exWidgetChild2,
      exWidgetG, StoneWidgetT.children, StoneWidgetT.instance_name] at this

/-- Claim C1 as amended: all_widgets traverses the tree breadth first,
visiting the root windows in reverse of the order they were added and
each visited node's children after all nodes already queued, in their
original order; on the example tree the visit order is root, child1,
child2, G; gather_commands drains each widget's queue fully in this
same node order, and the traversal visits every node exactly once. -/
theorem c1_traversal_amended :
    (allWidgets [exWidgetRoot]).map StoneWidgetT.instance_name
        = ["root", "child1", "child2", "G"]
    ∧ (allWidgets [.mk "w1" [] [], .mk "w2" [] []]).map StoneWidgetT.instance_name
        = ["w2", "w1"]
    ∧ (∀ windows : List StoneWidgetT,
        gatherCommands windows
          = (allWidgets windows).flatMap fun w => w.command_queue.map Prod.snd)
    ∧ (∀ windows : List StoneWidgetT,
        (allWidgets windows).length = totalWidgets windows)
    ∧ gatherCommands [exWidgetRoot]
        = [⟨"r", "widget", some "root", []⟩, ⟨"c1", "widget", some "child1", []⟩,
           ⟨"c2", "widget", some "child2", []⟩, ⟨"g", "widget", some "G", []⟩] := by
  refine ⟨?_, ?_, ?_, ?_, ?_⟩
  · simp [allWidgets, allWidgetsAux, exWidgetRoot, exWidgetChild1, exWidgetChild2,
      exWidgetG, StoneWidgetT.children, StoneWidgetT.instance_name]
  · simp [allWidgets, allWidgetsAux, StoneWidgetT.children, StoneWidgetT.instance_name]
  · intro windows
    simp [gatherCommands, drainWidgetQueue_eq_map]
  · intro windows
    rw [allWidgets, allWidgetsAux_length, totalWidgets_reverse]
  · simp [gatherCommands, allWidgets, allWidgetsAux, exWidgetRoot, exWidgetChild1,
      exWidgetChild2, exWidgetG, StoneWidgetT.children, StoneWidgetT.command_queue,
      drainWidgetQueue]

/-! ## Claim C2 -/

/-- Claim C2 counterexample: the serialized form of the set_visible
command for w1 is not the compact string the claim gives; it is seven
characters longer, so no reordering of the compact object's fields can
equal it either. -/
theorem c2_counterexample :
    exampleSetVisibleCmd.serialized ≠ compactClaimStr
    ∧ exampleSetVisibleCmd.serialized.length = compactClaimStr.length + 7 := by
  constructor
  · decide
  · decide

/-- Claim C2 as amended: serialization emits an object with cmd_code,
type and, for a widget-scoped command, widget (the bound target's
instance name), merged with all user-set fields, wrapped immediately
by the three-character start and end tokens with no surrounding
whitespace; the object notation is json.dumps default, which puts one
space after each colon and comma, so the example serializes to the
spaced string; gather_commands on a tree containing only w1 yields
exactly that one command. -/
theorem c2_serialization_amended :
    (∀ c : StoneCommand, ((c.body ++ c.cmd_items).map Prod.fst).Nodup →
        c.serialized = message_start ++ jsonDumps (c.body ++ c.cmd_items) ++ message_end)
  ∧ exampleSetVisibleCmd.serialized = spacedSerializedStr
  ∧ gatherCommands [exampleW1Widget] = [exampleSetVisibleCmd] := by
  refine ⟨?_, by decide, ?_⟩
  · intro c hn
    rw [StoneCommand.serialized, pyDictMerge_eq_append c.cmd_items c.body hn]
  · simp [gatherCommands, allWidgets, allWidgetsAux, exampleW1Widget,
      StoneWidgetT.children, StoneWidgetT.command_queue, drainWidgetQueue]

/-- Claim C2 witness: the amended theorem applied to the concrete
set_visible command, whose merged key list is duplicate free. -/
theorem c2_witness :
    ((exampleSetVisibleCmd.body ++ exampleSetVisibleCmd.cmd_items).map Prod.fst).Nodup
  ∧ exampleSetVisibleCmd.serialized
      = message_start ++
          jsonDumps (exampleSetVisibleCmd.body ++ exampleSetVisibleCmd.cmd_items) ++
          message_end :=
  ⟨by decide, c2_serialization_amended.1 exampleSetVisibleCmd (by decide)⟩

/-! ## Claim C3 -/

/-- Claim C3: pushing any byte sequence made of noise (free of the
start token) followed by a concatenation of well-formed spans leaves
exactly the spans' payloads in the frame queue, in span order, and
repeated pops return exactly those payloads; and pushing in two calls
equals one undivided push at every split point, so the result is
independent of how the sequence is chunked. -/
theorem c3_framing_roundtrip :
    (∀ (noise : List Nat) (payloads : List (List Nat)),
        noHit msgStartBytes [] noise = true →
        (∀ p ∈ payloads, payloadOkB p = true) →
        (pushBytes initResponseBuffer (noise ++ payloads.flatMap spanBytes)).queue
            = payloads ∧
        drainFrames
            (pushBytes initResponseBuffer (noise ++ payloads.flatMap spanBytes))
            = payloads)
  ∧ (∀ (s : StoneResponseBufferS) (a b : List Nat),
        pushBytes s (a ++ b) = pushBytes (pushBytes s a) b) := by
  constructor
  · intro noise payloads hn hps
    have h1 : pushBytes initResponseBuffer noise = ⟨noise, false, []⟩ := by
      have := pushBytes_calm noise initResponseBuffer rfl
        (by simpa [initResponseBuffer] using hn)
      simpa [initResponseBuffer] using this
    rw [pushBytes_append, h1]
    rcases pushBytes_spans payloads ⟨noise, false, []⟩ rfl hps with ⟨buf, hbuf⟩
    rw [hbuf]
    constructor
    · simp
    · simpa using drainFrames_eq payloads buf false
  · exact pushBytes_append

/-- Claim C3 witness: two concrete spans (payloads hi and the empty
payload) behind two noise bytes are framed into exactly those two
payloads. -/
theorem c3_witness :
    noHit msgStartBytes [] [0, 1] = true
  ∧ (∀ p ∈ [[104, 105], ([] : List Nat)], payloadOkB p = true)
  ∧ (pushBytes initResponseBuffer
        ([0, 1] ++ ([[104, 105], []] : List (List Nat)).flatMap spanBytes)).queue
      = [[104, 105], []] :=
  ⟨by decide, by decide,
    (c3_framing_roundtrip.1 [0, 1] [[104, 105], []] (by decide) (by decide)).1⟩

/-! ## Claim C4 -/

/-- Claim C4: decode raises a ValueError (the ProtocolError of the
specification) whenever the byte count after the four-byte header
differs from the declared length; when the lengths agree and the code
is unregistered it yields none (the unrecognized result, not an
error); and a frame of four header bytes declaring length zero with
empty payload decodes successfully to whatever the registered
descriptor produces on the empty payload. -/
theorem c4_decode_contract :
    (∀ (reg : RegistryV) (raw : List Nat),
        (raw.drop 4).length ≠ beBytes ((raw.drop 2).take 2) →
        decodeResponse reg raw =
          .error (.valueError
            (lengthMismatchMsg (raw.drop 4).length (beBytes ((raw.drop 2).take 2)))))
  ∧ (∀ (reg : RegistryV) (raw : List Nat),
        (raw.drop 4).length = beBytes ((raw.drop 2).take 2) →
        regLookup reg (beBytes (raw.take 2)) = none →
        decodeResponse reg raw = .ok none)
  ∧ (∀ (reg : RegistryV) (a b : Nat) (t : StoneResponseTypeV) (r : StoneResponseV),
        regLookup reg (beBytes [a, b]) = some t →
        t.new (beBytes [a, b]) [] = .ok r →
        decodeResponse reg [a, b, 0, 0] = .ok (some r)) := by
  refine ⟨?_, ?_, ?_⟩
  · intro reg raw h
    have h2 : raw.length - 4 ≠ beBytes ((raw.drop 2).take 2) := by simpa using h
    simp [decodeResponse, h2]
  · intro reg raw h hl
    have h2 : raw.length - 4 = beBytes ((raw.drop 2).take 2) := by simpa using h
    simp [decodeResponse, h2, hl]
  · intro reg a b t r hl hn
    have htake : ([a, b, 0, 0] : List Nat).take 2 = [a, b] := rfl
    have hbe : beBytes ([0, 0] : List Nat) = 0 := rfl
    simp [decodeResponse, htake, hbe, hl, hn]

/-- Claim C4 witness: on a one-code registry, a frame declaring length
5 with 4 payload bytes raises; an unregistered code with matching
lengths yields none; the registered code with declared length 0 and
empty payload decodes to a response with the empty field map. -/
theorem c4_witness :
    (([0, 1, 0, 5, 1, 2, 3, 4] : List Nat).drop 4).length
        ≠ beBytes ((([0, 1, 0, 5, 1, 2, 3, 4] : List Nat).drop 2).take 2)
  ∧ decodeResponse c4WitnessReg [0, 1, 0, 5, 1, 2, 3, 4]
      = .error (.valueError (lengthMismatchMsg 4 5))
  ∧ decodeResponse c4WitnessReg [0, 2, 0, 0] = .ok none
  ∧ decodeResponse c4WitnessReg [0, 1, 0, 0] = .ok (some ⟨1, [], none⟩) :=
  ⟨by decide,
   c4_decode_contract.1 c4WitnessReg [0, 1, 0, 5, 1, 2, 3, 4] (by decide),
   c4_decode_contract.2.1 c4WitnessReg [0, 2, 0, 0] (by decide) rfl,
   c4_decode_contract.2.2 c4WitnessReg 0 1 (.plain fun _ => .ok []) ⟨1, [], none⟩ rfl rfl⟩

/-! ## Claim C5 -/

/-- Claim C5: a widget queue holds at most one pending command per
code; enqueueing a code already queued replaces the entry in place,
keeping the code's original position while the later call's values
win; keys stay duplicate free; and draining emits oldest code slot
first, so pushing A twice around a push of B drains to the second A
followed by B. -/
theorem c5_queue_dedup :
    (∀ (q : List (String × StoneCommand)) (c1 c2 : StoneCommand),
        c1.cmd_code = c2.cmd_code →
        pushCommandQ (pushCommandQ q c1) c2 = pushCommandQ q c2)
  ∧ (∀ (q : List (String × StoneCommand)) (c : StoneCommand),
        (pushCommandQ q c).map Prod.fst =
          if hasKey q c.cmd_code then q.map Prod.fst
          else q.map Prod.fst ++ [c.cmd_code])
  ∧ (∀ (q : List (String × StoneCommand)) (c : StoneCommand),
        (q.map Prod.fst).Nodup → ((pushCommandQ q c).map Prod.fst).Nodup)
  ∧ drainWidgetQueue (pushCommandQ (pushCommandQ (pushCommandQ [] cmdA1) cmdB) cmdA2)
      = [cmdA2, cmdB] := by
  refine ⟨?_, ?_, ?_, ?_⟩
  · intro q c1 c2 h
    rw [pushCommandQ, pushCommandQ, pushCommandQ, h, dictSet_dictSet_same]
  · intro q c
    exact dictSet_keys q c.cmd_code c
  · intro q c hn
    exact dictSet_keys_nodup q c.cmd_code c hn
  · rfl

/-- Claim C5 witness: the dedup law and the uniqueness law applied to
a concrete queue already holding code B. -/
theorem c5_witness :
    cmdA1.cmd_code = cmdA2.cmd_code
  ∧ pushCommandQ (pushCommandQ [("B", cmdB)] cmdA1) cmdA2
      = pushCommandQ [("B", cmdB)] cmdA2
  ∧ (([("B", cmdB)] : List (String × StoneCommand)).map Prod.fst).Nodup
  ∧ ((pushCommandQ [("B", cmdB)] cmdA2).map Prod.fst).Nodup :=
  ⟨rfl, c5_queue_dedup.1 [("B", cmdB)] cmdA1 cmdA2 rfl, by decide,
    c5_queue_dedup.2.2.1 [("B", cmdB)] cmdA2 (by decide)⟩

/-! ## Claim C6 -/

/-- Claim C6 counterexample: dispatching a hello response whose
payload is the single byte 0 from the PING_PENDING state clears the
deadline but leaves the tracker DISCONNECTED, not CONNECTED as the
claim asserts for every dispatch of the hello response event. -/
theorem c6_counterexample :
    dispatchHelloResponse [0] ⟨false, some 1000, ["sys_hello"]⟩
        = ⟨false, none, ["sys_hello"]⟩
    ∧ trackerState (dispatchHelloResponse [0] ⟨false, some 1000, ["sys_hello"]⟩)
        ≠ .CONNECTED := by
  constructor
  · rfl
  · decide

/-- Claim C6 as amended: dispatching the hello response always clears
the pending ping deadline, whatever the current state; the state
afterwards is CONNECTED exactly when the payload is the single byte 1,
and DISCONNECTED otherwise. -/
theorem c6_hello_amended :
    ∀ (raw_data : List Nat) (s : StoneDisplayConn),
      (dispatchHelloResponse raw_data s).ping_timeout_time = none
      ∧ trackerState (dispatchHelloResponse raw_data s)
          = (if raw_data = [1] then .CONNECTED else .DISCONNECTED) := by
  intro raw s
  constructor
  · rfl
  · by_cases h : raw = [1]
    · simp [dispatchHelloResponse, setConnectedS, trackerState, h]
    · simp [dispatchHelloResponse, setConnectedS, trackerState, h]

/-! ## Claim C7 -/

/-- Claim C7: after a ping that records a deadline, a second ping call
at or past the deadline transitions to DISCONNECTED and clears the
deadline; the connected query at such a time first transitions to
DISCONNECTED and reports false; whereas a hello response with payload
1 arriving first transitions to CONNECTED, and the later connected
query then reports true without any timeout transition. -/
theorem c7_liveness_timeout :
    ∀ (t0 T t1 : Nat) (s0 : StoneDisplayConn),
      s0.ping_timeout_time = none →
      t0 + T ≤ t1 →
      ((pingDisplay t0 T s0).ping_timeout_time = some (t0 + T)
        ∧ trackerState (pingDisplay t0 T s0) = .PING_PENDING)
      ∧ (pingDisplay t1 T (pingDisplay t0 T s0)
            = setConnectedS false (pingDisplay t0 T s0)
        ∧ trackerState (pingDisplay t1 T (pingDisplay t0 T s0)) = .DISCONNECTED
        ∧ (pingDisplay t1 T (pingDisplay t0 T s0)).ping_timeout_time = none)
      ∧ (connectedProp t1 (pingDisplay t0 T s0)
            = (false, setConnectedS false (pingDisplay t0 T s0))
        ∧ trackerState (connectedProp t1 (pingDisplay t0 T s0)).2 = .DISCONNECTED)
      ∧ (trackerState (dispatchHelloResponse [1] (pingDisplay t0 T s0)) = .CONNECTED
        ∧ connectedProp t1 (dispatchHelloResponse [1] (pingDisplay t0 T s0))
            = (true, dispatchHelloResponse [1] (pingDisplay t0 T s0))) := by
  intro t0 T t1 s0 hp ht
  have h1 : pingDisplay t0 T s0
      = ⟨s0.connected, some (t0 + T), pushCode s0.home_queue_codes "sys_hello"⟩ := by
    simp [pingDisplay, hp]
  have hto : isTimedOut t1 (pingDisplay t0 T s0) = true := by
    rw [h1]; simp [isTimedOut, ht]
  refine ⟨⟨?_, ?_⟩, ⟨?_, ?_, ?_⟩, ⟨?_, ?_⟩, ⟨?_, ?_⟩⟩
  · rw [h1]
  · rw [h1]; rfl
  · rw [pingDisplay]; rw [h1]; simp [isTimedOut, ht]
  · rw [pingDisplay]; rw [h1]; simp [isTimedOut, ht, setConnectedS, trackerState]
  · rw [pingDisplay]; rw [h1]; simp [isTimedOut, ht, setConnectedS]
  · rw [connectedProp, hto]; simp
  · rw [connectedProp, hto]; simp [setConnectedS, trackerState]
  · rw [h1]; rfl
  · rw [connectedProp]; rw [h1]; simp [dispatchHelloResponse, setConnectedS, isTimedOut]

/-- Claim C7 witness: the scenario of the claim with the timeout set
to one second at time zero, the second call or query at one and a half
seconds, from the initial disconnected state. -/
theorem c7_witness :
    (⟨false, none, []⟩ : StoneDisplayConn).ping_timeout_time = none
  ∧ 0 + 1000 ≤ 1500
  ∧ pingDisplay 1500 1000 (pingDisplay 0 1000 ⟨false, none, []⟩)
      = setConnectedS false (pingDisplay 0 1000 ⟨false, none, []⟩)
  ∧ trackerState (pingDisplay 1500 1000 (pingDisplay 0 1000 ⟨false, none, []⟩))
      = .DISCONNECTED
  ∧ connectedProp 1500 (dispatchHelloResponse [1] (pingDisplay 0 1000 ⟨false, none, []⟩))
      = (true, dispatchHelloResponse [1] (pingDisplay 0 1000 ⟨false, none, []⟩)) :=
  ⟨rfl, by decide,
   (c7_liveness_timeout 0 1000 1500 ⟨false, none, []⟩ rfl (by decide)).2.1.1,
   (c7_liveness_timeout 0 1000 1500 ⟨false, none, []⟩ rfl (by decide)).2.1.2.1,
   (c7_liveness_timeout 0 1000 1500 ⟨false, none, []⟩ rfl (by decide)).2.2.2.2⟩

/-! ## Claim C8 -/

/-- Claim C8: registering a descriptor under a code that is already
registered raises a KeyError (the ConfigurationError of the
specification) and leaves the registry unchanged: the first descriptor
remains registered and is not replaced by the second. -/
theorem c8_registry_unique :
    ∀ (reg : RegistryV) (code : Nat) (t d : StoneResponseTypeV),
      regLookup reg code = some d →
      registerResponseType reg code t = .error (.keyError (dupRegistrationMsg code))
      ∧ registryAfter reg code t = reg
      ∧ regLookup (registryAfter reg code t) code = some d := by
  intro reg code t d h
  have h1 : (regLookup reg code).isSome = true := by simp [h]
  refine ⟨?_, ?_, ?_⟩
  · simp [registerResponseType, h1]
  · simp [registryAfter, registerResponseType, h1]
  · simp [registryAfter, registerResponseType, h1, h]

/-- Claim C8 witness: the duplicate registration of code 1 over a
concrete one-entry registry raises and leaves the first descriptor in
place. -/
theorem c8_witness :
    regLookup [(1, c8FirstType)] 1 = some c8FirstType
  ∧ registerResponseType [(1, c8FirstType)] 1 (.plain fun _ => .ok [])
      = .error (.keyError (dupRegistrationMsg 1))
  ∧ registryAfter [(1, c8FirstType)] 1 (.plain fun _ => .ok []) = [(1, c8FirstType)]
  ∧ regLookup (registryAfter [(1, c8FirstType)] 1 (.plain fun _ => .ok [])) 1
      = some c8FirstType :=
  ⟨rfl,
   (c8_registry_unique [(1, c8FirstType)] 1 (.plain fun _ => .ok []) c8FirstType rfl).1,
   (c8_registry_unique [(1, c8FirstType)] 1 (.plain fun _ => .ok []) c8FirstType rfl).2.1,
   (c8_registry_unique [(1, c8FirstType)] 1 (.plain fun _ => .ok []) c8FirstType rfl).2.2⟩

/-! ## Claim C9 -/

/-- Claim C9 evaluated on the code: the brightness setter does reject
101 and -1 with a ValueError before queueing anything, but the
current_index setter accepts the out-of-range selection index -1 (its
own error text documents the allowed range as 0 through child count
minus one) and queues a set_view command carrying index -1 on a slide
view with two children. -/
theorem c9_validation_bug :
    setBrightness 101 ⟨100, []⟩ = .error (.valueError (brightnessRangeMsg 101))
  ∧ setBrightness (-1) ⟨100, []⟩ = .error (.valueError (brightnessRangeMsg (-1)))
  ∧ brightnessAfter 101 ⟨100, []⟩ = ⟨100, []⟩
  ∧ ((-1 : Int) < 0 ∧ setCurrentIndex (-1) ⟨0, 2, "sv", []⟩
      = .ok ⟨-1, 2, "sv",
             [("set_view",
               ⟨"set_view", "slide_view", some "sv", [("index", .int (-1))]⟩)]⟩) := by
  refine ⟨rfl, rfl, rfl, by decide, rfl⟩

/-! ## Claim C10 -/

/-- Claim C10: when the declared length matches and a descriptor is
registered, but the descriptor's payload parser or widget-name parser
itself raises a KeyError, decode returns none (the unrecognized
result) instead of propagating the error, because the registry lookup
and the parser invocation sit under the same KeyError handler. -/
theorem c10_keyerror_guard :
    ∀ (reg : RegistryV) (raw : List Nat) (t : StoneResponseTypeV) (m : String),
      (raw.drop 4).length = beBytes ((raw.drop 2).take 2) →
      regLookup reg (beBytes (raw.take 2)) = some t →
      t.new (beBytes (raw.take 2)) (raw.drop 4) = .error (.keyError m) →
      decodeResponse reg raw = .ok none := by
  intro reg raw t m hlen hl hn
  simp [decodeResponse, hlen, hl, hn]

/-- Claim C10 witness: a registry whose code-7 descriptor has a
widget-name parser that raises KeyError; a well-formed code-7 frame is
silently dropped as if its code were unregistered. -/
theorem c10_witness :
    decodeResponse c10WitnessReg [0, 7, 0, 1, 65] = .ok none :=
  c10_keyerror_guard c10WitnessReg [0, 7, 0, 1, 65]
    (.widgetScoped (fun _ => .ok [("k", .int 0)])
      (fun _ => .error (.keyError "name missing")))
    "name missing" (by decide) rfl rfl
